import Mathlib

/-!
# Verification of the concurrency utilities in `nexxT/core/Utils.py`

This file gives a shallow embedding of the cross-thread coordination
primitives of the `nexxT` repository's `Utils.py` module and proves the
specified properties about them:

* `Barrier` (`Barrier.__init__` / `Barrier.wait`): a reusable rendezvous
  barrier built on a mutex and a condition variable.  Since the whole body
  of `wait` runs under the barrier's mutex, each visit of the critical
  section is modelled as one atomic step on the barrier state; a thread
  blocked on the condition variable is a member of the `waiting` list, and
  wakeups (both `wakeAll` and spurious ones) are explicit transitions.
* `waitForSignal`: a pump-and-poll wait for a Qt signal with an optional
  acceptance callback and an optional timeout.  The surrounding event loop
  is modelled by a script of events: each loop iteration's
  `QCoreApplication.processEvents()` call consumes the next script item,
  which either delivers one queued signal emission to the local slot or
  lets the monotonic clock (`time.perf_counter`) advance.
* `MethodInvoker.__init__`: resolution of the callback and of the target
  thread from the three accepted callback shapes (descriptor dictionary,
  bound method of a `QObject`, bare function), including the
  `moveToThread` call and the old-style-API warning.
* `isMainThread` / `assertMainThread`: the primary-thread predicate and
  the thread-affinity assertion.
-/

/-! ## The `Barrier` class (`Utils.py`, lines 99-124)

Python's integers are unbounded and may go negative, so the counter is an
`Int`.  `Barrier.__init__` stores `count` and `origCount` and performs no
validation whatsoever. -/

/-- State of one `Barrier` instance: the mutable `count`, the immutable
`origCount`, and the set (as a list) of threads currently blocked inside
`self.condition.wait(self.mutex)`. -/
structure Barrier where
  count : Int
  origCount : Int
  waiting : List Nat
  deriving Repr, DecidableEq

/-- `Barrier.__init__(self, count)`: stores the two counters, creates the
mutex and condition variable.  There is no validation of `count`. -/
def Barrier.init (count : Int) : Barrier :=
  { count := count, origCount := count, waiting := [] }

/-- Global system state used to reason about `Barrier.wait`: the barrier
itself plus the log of threads that have returned from a `wait()` call,
in order of return. -/
structure BarrierSys where
  bar : Barrier
  returned : List Nat
  deriving Repr, DecidableEq

/-- Events of a barrier execution: `arrive t` is thread `t` executing the
body of `Barrier.wait` (which holds the mutex throughout its non-blocking
part, hence is one atomic step), and `spurious t` is a spurious wakeup of
the condition variable delivered to the blocked thread `t`. -/
inductive BarrierAct where
  | arrive (t : Nat)
  | spurious (t : Nat)
  deriving Repr, DecidableEq

/-- One step of the barrier system.

`arrive t` follows `Barrier.wait` line by line: lock, `count -= 1`; if
`count > 0` the thread blocks on the condition variable (joins `waiting`);
otherwise `count = origCount` and `wakeAll()` happen in the same critical
section, so the arriving thread and every waiting thread return together.

`spurious t`: the code performs `self.condition.wait(self.mutex)` guarded
only by a single `if`, with no re-check loop, so a thread whose wait call
returns — for whatever reason — proceeds directly to `mutex.unlock()` and
returns from `wait()`. -/
def BarrierSys.step (s : BarrierSys) (a : BarrierAct) : BarrierSys :=
  match a with
  | .arrive t =>
    if s.bar.count - 1 > 0 then
      { s with bar := { s.bar with count := s.bar.count - 1, waiting := t :: s.bar.waiting } }
    else
      { bar := { s.bar with count := s.bar.origCount, waiting := [] },
        returned := s.returned ++ (t :: s.bar.waiting) }
  | .spurious t =>
    if t ∈ s.bar.waiting then
      { bar := { s.bar with waiting := s.bar.waiting.erase t },
        returned := s.returned ++ [t] }
    else s

/-- Run a barrier execution from a state through a list of actions. -/
def BarrierSys.run (s : BarrierSys) (tr : List BarrierAct) : BarrierSys :=
  tr.foldl BarrierSys.step s

/-- The initial system state for a barrier constructed with `count = n`. -/
def BarrierSys.init (n : Int) : BarrierSys :=
  { bar := Barrier.init n, returned := [] }

example : BarrierSys.run (BarrierSys.init 2) [.arrive 1, .arrive 2] =
    { bar := { count := 2, origCount := 2, waiting := [] }, returned := [2, 1] } := by
  decide

example : BarrierSys.run (BarrierSys.init 2) [.arrive 1, .spurious 1] =
    { bar := { count := 1, origCount := 2, waiting := [] }, returned := [1] } := by
  decide

/-! ## `waitForSignal` (`Utils.py`, lines 68-97)

The function is shallowly embedded as a deterministic execution over a
script of loop events.  The payload type of the signal is a parameter `α`.
Each `while` iteration calls `QCoreApplication.processEvents()`, modelled
as consuming the next script item: `fire p` delivers one queued emission
of the signal (running the local `_slot` with payload `p`), `tick d`
advances the monotonic clock `time.perf_counter()` by `d`.  Time is in
abstract `Nat` units. -/

/-- One event consumed by a `processEvents` call inside `waitForSignal`'s
wait loop. -/
inductive SigEvent (α : Type) where
  | fire (p : α)
  | tick (d : Nat)
  deriving Repr, DecidableEq

/-- The local state of one `waitForSignal` call: the `_received` flag, the
`_sigArgs` cell, whether `_slot` is currently connected to the signal, how
many times `signal.disconnect(_slot)` has run, and the current value of
the monotonic clock. -/
structure WaitState (α : Type) where
  received : Bool
  sigArgs : Option α
  connected : Bool
  disconnects : Nat
  now : Nat
  deriving Repr, DecidableEq

/-- The possible outcomes of a `waitForSignal` call: a normal return (with
the final `_sigArgs`), a `TimeoutError`, a `NexTInternalError` from a
failed `connect`, or `stillWaiting` when the script is exhausted while the
loop has not terminated (the call has not exited). -/
inductive WaitResult (α : Type) where
  | success (p : Option α)
  | timeoutErr
  | internalErr
  | stillWaiting
  deriving Repr, DecidableEq

variable {α : Type}

/-- Whether a delivered payload makes `_slot` set `_received = True`:
`callback is None` accepts everything, otherwise the callback decides. -/
def accepted (callback : Option (α → Bool)) (p : α) : Bool :=
  match callback with
  | none => true
  | some f => f p

/-- The local `_slot(*args)`: it always stores the payload into `_sigArgs`
and sets `_received` when the payload is accepted (once set, `_received`
is never cleared). -/
def slotCall (callback : Option (α → Bool)) (p : α) (s : WaitState α) : WaitState α :=
  { s with sigArgs := some p, received := s.received || accepted callback p }

/-- Effect of one script item on the wait state. -/
def procEvent (callback : Option (α → Bool)) (e : SigEvent α) (s : WaitState α) : WaitState α :=
  match e with
  | .fire p => slotCall callback p s
  | .tick d => { s with now := s.now + d }

/-- `signal.disconnect(_slot)`. -/
def disconnectSlot (s : WaitState α) : WaitState α :=
  { s with connected := false, disconnects := s.disconnects + 1 }

/-- The timeout test `timeout is not None and time.perf_counter() - t0 > timeout`. -/
def timeoutExceeded (timeout : Option Nat) (t0 now : Nat) : Bool :=
  match timeout with
  | none => false
  | some tmo => decide (now - t0 > tmo)

/-- Total clock advance contained in a script: the time that elapses on
the monotonic clock while the loop consumes the whole script. -/
def sumTicks : List (SigEvent α) → Nat
  | [] => 0
  | .fire _ :: rest => sumTicks rest
  | .tick d :: rest => d + sumTicks rest

/-- The `while not _received:` loop of `waitForSignal`.  At the top of each
iteration `_received` is checked; if set, the function disconnects and
returns `_sigArgs`.  Otherwise `processEvents` consumes the next script
item, then the timeout is checked (note: after `processEvents`, even if the
event just arrived), disconnecting and raising `TimeoutError` when
exceeded. -/
def waitLoop (callback : Option (α → Bool)) (timeout : Option Nat) (t0 : Nat) :
    List (SigEvent α) → WaitState α → WaitResult α × WaitState α
  | script, s =>
    if s.received then (.success s.sigArgs, disconnectSlot s)
    else
      match script with
      | [] => (.stillWaiting, s)
      | e :: rest =>
        let s' := procEvent callback e s
        if timeoutExceeded timeout t0 s'.now then (.timeoutErr, disconnectSlot s')
        else waitLoop callback timeout t0 rest s'

/-- `waitForSignal(signal, callback=None, timeout=None)`.  `connectOk`
models the boolean result of `signal.connect(_slot, Qt.QueuedConnection)`;
when it is false the function raises `NexTInternalError` before any event
pumping.  `t0` is the value of `time.perf_counter()` at entry and the
returned state's `now` is the clock at exit. -/
def waitForSignal (connectOk : Bool) (callback : Option (α → Bool)) (timeout : Option Nat)
    (t0 : Nat) (script : List (SigEvent α)) : WaitResult α × WaitState α :=
  let s0 : WaitState α :=
    { received := false, sigArgs := none, connected := false, disconnects := 0, now := t0 }
  if connectOk then waitLoop callback timeout t0 script { s0 with connected := true }
  else (.internalErr, s0)

example :
    waitForSignal (α := Nat) true (some (fun p => p == 3)) none 0
      [.fire 1, .fire 2, .fire 3, .fire 9] =
      (.success (some 3),
       { received := true, sigArgs := some 3, connected := false, disconnects := 1, now := 0 }) := by
  decide

example :
    waitForSignal (α := Nat) true none (some 3) 10 [.tick 2, .tick 2] =
      (.timeoutErr,
       { received := false, sigArgs := none, connected := false, disconnects := 1, now := 14 }) := by
  decide

example :
    waitForSignal (α := Nat) false none none 0 [.fire 1] =
      (.internalErr,
       { received := false, sigArgs := none, connected := false, disconnects := 0, now := 0 }) := by
  decide

/-! ## `MethodInvoker.__init__` (`Utils.py`, lines 26-58)

The constructor resolves the callback and the target thread from one of
three accepted callback shapes, optionally warns about the old-style API,
optionally moves itself to the resolved thread, and finally dispatches
(idle-task timer, or signal connect + emit).  Threads and objects are
identified by `Nat`s; `objThread` is the environment mapping a `QObject`
to its owning thread (Qt's `obj.thread()`). -/

/-- The three shapes of the `callback` argument accepted by
`MethodInvoker.__init__`: a `dict` with `"object"`, `"method"` and an
optional `"thread"` key; a bound method whose `__self__` is a `QObject`;
or anything else (a bare function, identified by a `Nat`). -/
inductive CallbackSpec where
  | descriptor (obj : Nat) (method : String) (explicitThread : Option Nat)
  | boundMethod (obj : Nat) (method : String)
  | bare (f : Nat)
  deriving Repr, DecidableEq

/-- The resolved `self.callback`: either the attribute `method` of a
`QObject` (`getattr(obj, method)` for a descriptor, or the bound method
itself), or the bare callable. -/
inductive ResolvedCallback where
  | objMethod (obj : Nat) (method : String)
  | bareFn (f : Nat)
  deriving Repr, DecidableEq

/-- The `connectiontype` argument: one of the Qt connection types, or the
sentinel string `MethodInvoker.IDLE_TASK`. -/
inductive ConnType where
  | direct
  | queued
  | blockingQueued
  | idleTask
  deriving Repr, DecidableEq

/-- How the constructor finally dispatches the invocation: via
`QTimer.singleShot(0, ...)` for `IDLE_TASK`, or via
`signal.connect(..., connectiontype)` followed by `signal.emit()`. -/
inductive Dispatch where
  | idleScheduled
  | connectedAndEmitted (ct : ConnType)
  deriving Repr, DecidableEq

/-- The observable outcome of `MethodInvoker.__init__`: the stored
callback and arguments, the resolved target thread (`None` for a bare
function), whether the old-style-API warning was logged, the thread the
invoker object was moved to (`moveToThread` runs iff a thread was
resolved), and the dispatch action taken. -/
structure InvokerState where
  callback : ResolvedCallback
  args : List Nat
  thread : Option Nat
  warned : Bool
  movedTo : Option Nat
  dispatch : Dispatch
  deriving Repr, DecidableEq

/-- `MethodInvoker.__init__(self, callback, connectiontype, *args)`,
line by line over the branch on the callback's shape:

* `dict`: `self.callback = getattr(obj, method)`;
  `thread = callback["thread"] if "thread" in callback else obj.thread()`;
* bound method of a `QObject`: `self.callback = callback;
  thread = callback.__self__.thread()`;
* otherwise: `thread = None`, and if `connectiontype != Qt.DirectConnection`
  a warning `"Using old style API, wrong thread might be used!"` is logged.

Then `if not thread is None: self.moveToThread(thread)`, and the dispatch:
`QTimer.singleShot` for `IDLE_TASK`, else connect + emit.  No branch
raises. -/
def MethodInvoker.init (objThread : Nat → Nat) (callback : CallbackSpec) (ct : ConnType)
    (args : List Nat) : InvokerState :=
  let (cb, thread, warned) :=
    match callback with
    | .descriptor obj method explicitThread =>
      (ResolvedCallback.objMethod obj method,
       some (match explicitThread with
             | some t => t
             | none => objThread obj),
       false)
    | .boundMethod obj method =>
      (ResolvedCallback.objMethod obj method, some (objThread obj), false)
    | .bare f =>
      (ResolvedCallback.bareFn f, none, decide (ct ≠ ConnType.direct))
  { callback := cb
    args := args
    thread := thread
    warned := warned
    movedTo := thread
    dispatch := if ct = ConnType.idleTask then .idleScheduled else .connectedAndEmitted ct }

example :
    MethodInvoker.init (fun o => o + 100) (.bare 7) .queued [1, 2] =
      { callback := .bareFn 7, args := [1, 2], thread := none, warned := true,
        movedTo := none, dispatch := .connectedAndEmitted .queued } := by
  decide

example :
    MethodInvoker.init (fun o => o + 100) (.descriptor 4 "start" none) .blockingQueued [] =
      { callback := .objMethod 4 "start", args := [], thread := some 104, warned := false,
        movedTo := some 104, dispatch := .connectedAndEmitted .blockingQueued } := by
  rfl

/-! ## `isMainThread` / `assertMainThread` (`Utils.py`, lines 126-139)

`QCoreApplication.instance()` is modelled as an `Option Nat` (the
process-wide application object, or `None`), `appThread` maps an
application object to its owning thread (`instance().thread()`), and
`current` is `QThread.currentThread()`. -/

/-- `isMainThread()`: `not QCoreApplication.instance() or
QThread.currentThread() == QCoreApplication.instance().thread()`. -/
def isMainThread (inst : Option Nat) (appThread : Nat → Nat) (current : Nat) : Bool :=
  match inst with
  | none => true
  | some a => current == appThread a

/-- `assertMainThread()`: raises `NexTInternalError` iff `isMainThread()`
is false. -/
def assertMainThread (inst : Option Nat) (appThread : Nat → Nat) (current : Nat) :
    Except String Unit :=
  if isMainThread inst appThread current then Except.ok ()
  else Except.error "Non thread-safe function is called in unexpected thread."

example : assertMainThread none (fun a => a) 55 = Except.ok () := by rfl

example : assertMainThread (some 3) (fun a => a) 55 =
    Except.error "Non thread-safe function is called in unexpected thread." := by rfl

/-! ## Barrier lemmas -/

/-- `Barrier.wait` when the decremented counter is still positive: the
arriving thread blocks on the condition variable. -/
lemma BarrierSys.step_arrive_block (c N : Int) (w r : List Nat) (t : Nat)
    (hc : c - 1 > 0) :
    BarrierSys.step ⟨⟨c, N, w⟩, r⟩ (.arrive t) = ⟨⟨c - 1, N, t :: w⟩, r⟩ := by
  simp [BarrierSys.step, hc]

/-- `Barrier.wait` when the decremented counter is not positive: the
counter is reset to `origCount` and every waiter is woken, all inside the
same critical section, so the arriver and all waiters return together. -/
lemma BarrierSys.step_arrive_release (c N : Int) (w r : List Nat) (t : Nat)
    (hc : ¬(c - 1 > 0)) :
    BarrierSys.step ⟨⟨c, N, w⟩, r⟩ (.arrive t) = ⟨⟨N, N, []⟩, r ++ (t :: w)⟩ := by
  simp [BarrierSys.step, hc]

/-- A spurious wakeup of a thread actually blocked in the condition
variable makes it return from `wait()` (the code has no re-check loop). -/
lemma BarrierSys.step_spurious_mem (c N : Int) (w r : List Nat) (t : Nat)
    (hm : t ∈ w) :
    BarrierSys.step ⟨⟨c, N, w⟩, r⟩ (.spurious t) = ⟨⟨c, N, w.erase t⟩, r ++ [t]⟩ := by
  simp [BarrierSys.step, hm]

/-- A spurious wakeup aimed at a thread that is not blocked is a no-op. -/
lemma BarrierSys.step_spurious_not_mem (c N : Int) (w r : List Nat) (t : Nat)
    (hm : t ∉ w) :
    BarrierSys.step ⟨⟨c, N, w⟩, r⟩ (.spurious t) = ⟨⟨c, N, w⟩, r⟩ := by
  simp [BarrierSys.step, hm]

/-- Unfolding one step of a run. -/
lemma BarrierSys.run_cons (s : BarrierSys) (a : BarrierAct) (tr : List BarrierAct) :
    BarrierSys.run s (a :: tr) = BarrierSys.run (s.step a) tr := rfl

/-- The counter invariant `1 ≤ count ≤ N` (with `origCount = N`) is
preserved by arbitrary executions, spurious wakeups included. -/
lemma BarrierSys.run_inv (N : Int) (tr : List BarrierAct) :
    ∀ s : BarrierSys, 1 ≤ s.bar.count → s.bar.count ≤ N → s.bar.origCount = N →
      1 ≤ (s.run tr).bar.count ∧ (s.run tr).bar.count ≤ N ∧
      (s.run tr).bar.origCount = N := by
  induction tr with
  | nil => intro s h1 h2 h3; exact ⟨h1, h2, h3⟩
  | cons a tr ih =>
    intro s h1 h2 h3
    obtain ⟨⟨c, oc, w⟩, r⟩ := s
    have h1' : 1 ≤ c := h1
    have h2' : c ≤ N := h2
    have h3' : N = oc := (h3 : oc = N).symm
    subst h3'
    rw [BarrierSys.run_cons]
    cases a with
    | arrive t =>
      by_cases hc : c - 1 > 0
      · rw [BarrierSys.step_arrive_block c N w r t hc]
        exact ih _ (show 1 ≤ c - 1 by omega) (show c - 1 ≤ N by omega) rfl
      · rw [BarrierSys.step_arrive_release c N w r t hc]
        exact ih _ (show 1 ≤ N by omega) (show N ≤ N by omega) rfl
    | spurious t =>
      by_cases hm : t ∈ w
      · rw [BarrierSys.step_spurious_mem c N w r t hm]
        exact ih _ h1' h2' rfl
      · rw [BarrierSys.step_spurious_not_mem c N w r t hm]
        exact ih _ h1' h2' rfl

/-- Running exactly `count` many arrivals from a barrier whose counter is
`count` brings the barrier back to the freshly-reset state
`⟨origCount, origCount, []⟩`. -/
lemma BarrierSys.run_arrive_cycle (N : Int) :
    ∀ (ts : List Nat) (c : Int) (w r : List Nat), ts ≠ [] → (ts.length : Int) = c →
      (BarrierSys.run ⟨⟨c, N, w⟩, r⟩ (ts.map .arrive)).bar = ⟨N, N, []⟩ := by
  intro ts
  induction ts with
  | nil => intro c w r h; exact absurd rfl h
  | cons t rest ih =>
    intro c w r _ hlen
    rw [List.map_cons, BarrierSys.run_cons]
    cases rest with
    | nil =>
      have hc : c = 1 := by simpa using hlen.symm
      subst hc
      rw [BarrierSys.step_arrive_release 1 N w r t (by omega)]
      rfl
    | cons t' rest' =>
      have hc : c - 1 > 0 := by
        simp only [List.length_cons] at hlen
        omega
      rw [BarrierSys.step_arrive_block c N w r t hc]
      refine ih (c - 1) (t :: w) r (by simp) ?_
      simp only [List.length_cons] at hlen ⊢
      omega

/-- In an arrive-only execution from a consistent state, the barrier keeps
`count + |waiting| = N` and `1 ≤ count`, the number of returned threads is
a multiple of `N` (threads are released only in full groups of `N`), and
every arrival is accounted for as either returned or still waiting. -/
lemma BarrierSys.run_arrive_groups (N : Int) :
    ∀ (ts : List Nat) (c : Int) (w r : List Nat),
      c + (w.length : Int) = N → 1 ≤ c → N ∣ (r.length : Int) →
      (BarrierSys.run ⟨⟨c, N, w⟩, r⟩ (ts.map .arrive)).bar.count +
        ((BarrierSys.run ⟨⟨c, N, w⟩, r⟩ (ts.map .arrive)).bar.waiting.length : Int) = N ∧
      N ∣ ((BarrierSys.run ⟨⟨c, N, w⟩, r⟩ (ts.map .arrive)).returned.length : Int) ∧
      ((BarrierSys.run ⟨⟨c, N, w⟩, r⟩ (ts.map .arrive)).returned.length : Int) +
        ((BarrierSys.run ⟨⟨c, N, w⟩, r⟩ (ts.map .arrive)).bar.waiting.length : Int) =
        (r.length : Int) + (w.length : Int) + ts.length := by
  intro ts
  induction ts with
  | nil =>
    intro c w r h2 h3 h4
    simp only [List.map_nil]
    exact ⟨h2, h4, by simp [BarrierSys.run]⟩
  | cons t rest ih =>
    intro c w r h2 h3 h4
    rw [List.map_cons, BarrierSys.run_cons]
    by_cases hc : c - 1 > 0
    · rw [BarrierSys.step_arrive_block c N w r t hc]
      obtain ⟨g2, g4, g5⟩ := ih (c - 1) (t :: w) r
        (by simp only [List.length_cons]; push_cast; omega) (by omega) h4
      refine ⟨g2, g4, ?_⟩
      rw [g5]
      simp only [List.length_cons]
      push_cast
      omega
    · have hw : (w.length : Int) = N - 1 := by omega
      rw [BarrierSys.step_arrive_release c N w r t hc]
      have hdvd : N ∣ ((r ++ t :: w).length : Int) := by
        obtain ⟨k, hk⟩ := h4
        refine ⟨k + 1, ?_⟩
        simp only [List.length_append, List.length_cons]
        push_cast
        rw [hk, hw]
        ring
      obtain ⟨g2, g4, g5⟩ := ih N [] (r ++ t :: w) (by simp) (by omega) hdvd
      refine ⟨g2, g4, ?_⟩
      rw [g5]
      simp only [List.length_append, List.length_cons, List.length_nil]
      push_cast
      omega

/-! ## Claim theorems about the barrier -/

/-- C1, counterexample: the claim asserts that a spurious wakeup of the
condition variable can never make a thread return from `Barrier.wait`
before the counter has reached 0, because the wait loop re-checks the
counter.  In the code there is no such loop: `condition.wait(mutex)` is
guarded by a single `if` and the thread proceeds to return as soon as the
wait call returns.  Concretely, for a barrier with `requiredCount = 2`,
after one arrival (thread 1 blocks) followed by one spurious wakeup,
thread 1 has returned from `wait()` although the counter is still 1 and
the second arrival never happened. -/
theorem barrier_spurious_wakeup_returns_early :
    ((BarrierSys.init 2).run [.arrive 1, .spurious 1]).returned = [1] ∧
    ((BarrierSys.init 2).run [.arrive 1, .spurious 1]).bar.count = 1 := by
  decide

/-- C1 (amended): in every execution of a `Barrier` with
`requiredCount = N ≥ 1` in which all wakeups come from `wakeAll` (no
spurious wakeups), threads return from `wait()` only in complete groups of
`N` — the number of returned threads is always a multiple of `N`, so no
blocked thread proceeds before the counter has actually reached 0 (the
`N`-th arrival of its cycle) — and every arrival is accounted for as
either returned or still blocked.  The protection against spurious
wakeups that the claim attributes to a re-checking wait loop is absent
from the code (see the counterexample). -/
theorem barrier_no_early_return_without_spurious (N : Int) (hN : 1 ≤ N) (ts : List Nat) :
    N ∣ (((BarrierSys.init N).run (ts.map .arrive)).returned.length : Int) ∧
    (((BarrierSys.init N).run (ts.map .arrive)).returned.length : Int) +
      (((BarrierSys.init N).run (ts.map .arrive)).bar.waiting.length : Int) =
      (ts.length : Int) := by
  have h := BarrierSys.run_arrive_groups N ts N [] [] (by simp) hN (by simp)
  exact ⟨h.2.1, by simpa using h.2.2⟩

theorem barrier_no_early_return_without_spurious_witness :
    2 ∣ (((BarrierSys.init 2).run (([1, 2, 3] : List Nat).map .arrive)).returned.length : Int) ∧
    (((BarrierSys.init 2).run (([1, 2, 3] : List Nat).map .arrive)).returned.length : Int) +
      (((BarrierSys.init 2).run (([1, 2, 3] : List Nat).map .arrive)).bar.waiting.length : Int) =
      ((([1, 2, 3] : List Nat).length : Nat) : Int) :=
  barrier_no_early_return_without_spurious 2 (by decide) [1, 2, 3]

/-- C2, counterexample: the claim asserts that constructing a `Barrier`
with `requiredCount = 0` (or negative) raises `NexTInternalError` and
never produces a barrier object.  `Barrier.__init__` contains no
validation at all: `Barrier(0)` succeeds, storing `count = origCount = 0`,
and the very first `wait()` on it releases the caller immediately (the
counter is "reset" to 0 and `wakeAll` is called), exactly the
caller-bug-masking behaviour the spec says can never happen. -/
theorem barrier_zero_count_constructs :
    Barrier.init 0 = { count := 0, origCount := 0, waiting := [] } ∧
    BarrierSys.run (BarrierSys.init 0) [.arrive 7] =
      { bar := { count := 0, origCount := 0, waiting := [] }, returned := [7] } := by
  decide

/-- C2 (amended): constructing a `Barrier` with `requiredCount = 0` or
negative always succeeds — the constructor performs no validation and
stores the malformed count unchanged — and the first `wait()` on such a
barrier releases the calling thread immediately without blocking. -/
theorem barrier_nonpositive_count_no_validation (c : Int) (hc : c ≤ 0) (t : Nat) :
    Barrier.init c = { count := c, origCount := c, waiting := [] } ∧
    BarrierSys.run (BarrierSys.init c) [.arrive t] =
      { bar := { count := c, origCount := c, waiting := [] }, returned := [t] } := by
  refine ⟨rfl, ?_⟩
  rw [show BarrierSys.init c = (⟨⟨c, c, []⟩, []⟩ : BarrierSys) from rfl,
    BarrierSys.run_cons, BarrierSys.step_arrive_release c c [] [] t (by omega)]
  rfl

theorem barrier_nonpositive_count_no_validation_witness :
    Barrier.init (-3) = { count := -3, origCount := -3, waiting := [] } ∧
    BarrierSys.run (BarrierSys.init (-3)) [.arrive 5] =
      { bar := { count := -3, origCount := -3, waiting := [] }, returned := [5] } :=
  barrier_nonpositive_count_no_validation (-3) (by decide) 5

/-- C5: for a `Barrier` with `requiredCount = N ≥ 1`, (a) the state
invariant `0 ≤ count ≤ N` holds after every execution (arrivals and even
spurious wakeups), i.e. at every point where the mutex is not held; (b)
the arrival that brings the counter to 0 resets the counter to
`origCount = N` and wakes all blocked waiters in the same critical
section — one atomic step whose result state is exactly the fresh barrier
with the arriver and all previous waiters returned; and (c) the barrier
is reusable: after a full cycle of `N` arrivals the barrier state equals
the freshly constructed one. -/
theorem barrier_invariant_and_reusability (N : Int) (hN : 1 ≤ N) (tr : List BarrierAct)
    (ts : List Nat) (hts : (ts.length : Int) = N) :
    (0 ≤ ((BarrierSys.init N).run tr).bar.count ∧
      ((BarrierSys.init N).run tr).bar.count ≤ N) ∧
    (∀ (w r : List Nat) (t : Nat),
      BarrierSys.step ⟨⟨1, N, w⟩, r⟩ (.arrive t) = ⟨⟨N, N, []⟩, r ++ (t :: w)⟩) ∧
    ((BarrierSys.init N).run (ts.map .arrive)).bar = (BarrierSys.init N).bar := by
  refine ⟨?_, ?_, ?_⟩
  · have h := BarrierSys.run_inv N tr (BarrierSys.init N) hN (le_refl N) rfl
    exact ⟨by omega, h.2.1⟩
  · intro w r t
    exact BarrierSys.step_arrive_release 1 N w r t (by omega)
  · have hne : ts ≠ [] := by
      intro h
      subst h
      simp at hts
      omega
    exact BarrierSys.run_arrive_cycle N ts N [] [] hne hts

theorem barrier_invariant_and_reusability_witness :
    (0 ≤ ((BarrierSys.init 2).run [.arrive 1]).bar.count ∧
      ((BarrierSys.init 2).run [.arrive 1]).bar.count ≤ 2) ∧
    (∀ (w r : List Nat) (t : Nat),
      BarrierSys.step ⟨⟨1, 2, w⟩, r⟩ (.arrive t) = ⟨⟨2, 2, []⟩, r ++ (t :: w)⟩) ∧
    ((BarrierSys.init 2).run (([1, 2] : List Nat).map .arrive)).bar = (BarrierSys.init 2).bar :=
  barrier_invariant_and_reusability 2 (by decide) [.arrive 1] [1, 2] (by decide)

/-! ## `waitForSignal` lemmas -/

@[simp] lemma procEvent_connected (cb : Option (α → Bool)) (e : SigEvent α) (s : WaitState α) :
    (procEvent cb e s).connected = s.connected := by
  cases e <;> rfl

@[simp] lemma procEvent_disconnects (cb : Option (α → Bool)) (e : SigEvent α) (s : WaitState α) :
    (procEvent cb e s).disconnects = s.disconnects := by
  cases e <;> rfl

@[simp] lemma procEvent_fire_now (cb : Option (α → Bool)) (p : α) (s : WaitState α) :
    (procEvent cb (.fire p) s).now = s.now := rfl

@[simp] lemma procEvent_tick_now (cb : Option (α → Bool)) (d : Nat) (s : WaitState α) :
    (procEvent cb (.tick d) s).now = s.now + d := rfl

@[simp] lemma procEvent_tick_received (cb : Option (α → Bool)) (d : Nat) (s : WaitState α) :
    (procEvent cb (.tick d) s).received = s.received := rfl

@[simp] lemma procEvent_fire_received (cb : Option (α → Bool)) (p : α) (s : WaitState α) :
    (procEvent cb (.fire p) s).received = (s.received || accepted cb p) := rfl

@[simp] lemma procEvent_fire_sigArgs (cb : Option (α → Bool)) (p : α) (s : WaitState α) :
    (procEvent cb (.fire p) s).sigArgs = some p := rfl

@[simp] lemma procEvent_tick_sigArgs (cb : Option (α → Bool)) (d : Nat) (s : WaitState α) :
    (procEvent cb (.tick d) s).sigArgs = s.sigArgs := rfl

/-- The loop exits immediately with the stored `_sigArgs` once `_received`
is set, disconnecting on the way out. -/
lemma waitLoop_received (cb : Option (α → Bool)) (tmo : Option Nat) (t0 : Nat)
    (script : List (SigEvent α)) (s : WaitState α) (h : s.received = true) :
    waitLoop cb tmo t0 script s = (.success s.sigArgs, disconnectSlot s) := by
  rw [waitLoop.eq_def]
  simp [h]

/-- An exhausted script with `_received` still unset leaves the loop
running. -/
lemma waitLoop_nil (cb : Option (α → Bool)) (tmo : Option Nat) (t0 : Nat)
    (s : WaitState α) (h : s.received = false) :
    waitLoop cb tmo t0 [] s = (.stillWaiting, s) := by
  rw [waitLoop.eq_def]
  simp [h]

/-- A loop iteration whose `processEvents` pushes the clock past the
deadline disconnects and raises `TimeoutError`. -/
lemma waitLoop_cons_timeout (cb : Option (α → Bool)) (tmo : Option Nat) (t0 : Nat)
    (e : SigEvent α) (rest : List (SigEvent α)) (s : WaitState α)
    (h : s.received = false) (ht : timeoutExceeded tmo t0 (procEvent cb e s).now = true) :
    waitLoop cb tmo t0 (e :: rest) s = (.timeoutErr, disconnectSlot (procEvent cb e s)) := by
  rw [waitLoop.eq_def]
  simp [h, ht]

/-- A loop iteration that neither receives nor times out continues with
the next iteration. -/
lemma waitLoop_cons_continue (cb : Option (α → Bool)) (tmo : Option Nat) (t0 : Nat)
    (e : SigEvent α) (rest : List (SigEvent α)) (s : WaitState α)
    (h : s.received = false) (ht : timeoutExceeded tmo t0 (procEvent cb e s).now = false) :
    waitLoop cb tmo t0 (e :: rest) s = waitLoop cb tmo t0 rest (procEvent cb e s) := by
  rw [waitLoop.eq_def]
  simp [h, ht]

/-- Whenever the wait loop exits (any result except `stillWaiting`), it
has run `signal.disconnect(_slot)` exactly once and left the slot
disconnected. -/
lemma waitLoop_exit_disconnects (cb : Option (α → Bool)) (tmo : Option Nat) (t0 : Nat) :
    ∀ (script : List (SigEvent α)) (s : WaitState α),
      (waitLoop cb tmo t0 script s).1 ≠ .stillWaiting →
      (waitLoop cb tmo t0 script s).2.connected = false ∧
      (waitLoop cb tmo t0 script s).2.disconnects = s.disconnects + 1 := by
  intro script
  induction script with
  | nil =>
    intro s h
    cases hr : s.received with
    | false => rw [waitLoop_nil cb tmo t0 s hr] at h; exact absurd rfl h
    | true => rw [waitLoop_received cb tmo t0 [] s hr]; exact ⟨rfl, rfl⟩
  | cons e rest ih =>
    intro s h
    cases hr : s.received with
    | true => rw [waitLoop_received cb tmo t0 (e :: rest) s hr]; exact ⟨rfl, rfl⟩
    | false =>
      cases ht : timeoutExceeded tmo t0 (procEvent cb e s).now with
      | true =>
        rw [waitLoop_cons_timeout cb tmo t0 e rest s hr ht]
        exact ⟨rfl, by simp [disconnectSlot]⟩
      | false =>
        rw [waitLoop_cons_continue cb tmo t0 e rest s hr ht] at h ⊢
        obtain ⟨hc, hd⟩ := ih (procEvent cb e s) h
        exact ⟨hc, by rw [hd]; simp⟩

/-- If no delivered payload is accepted and the script's clock advance
eventually pushes the elapsed time strictly past the deadline, the loop
raises `TimeoutError` after disconnecting, at a moment strictly later
than `t0 + T`. -/
lemma waitLoop_times_out (cb : Option (α → Bool)) (T t0 : Nat) :
    ∀ (script : List (SigEvent α)) (s : WaitState α),
      s.received = false →
      (∀ p, SigEvent.fire p ∈ script → accepted cb p = false) →
      t0 ≤ s.now → s.now - t0 ≤ T → T < s.now - t0 + sumTicks script →
      (waitLoop cb (some T) t0 script s).1 = .timeoutErr ∧
      T < (waitLoop cb (some T) t0 script s).2.now - t0 ∧
      (waitLoop cb (some T) t0 script s).2.connected = false ∧
      (waitLoop cb (some T) t0 script s).2.disconnects = s.disconnects + 1 := by
  intro script
  induction script with
  | nil =>
    intro s _ _ _ hbound htot
    exfalso
    simp [sumTicks] at htot
    omega
  | cons e rest ih =>
    intro s hr hacc hle hbound htot
    cases e with
    | fire p =>
      have hra : accepted cb p = false := hacc p (by simp)
      have hrec : (procEvent cb (.fire p) s).received = false := by simp [hr, hra]
      have ht : timeoutExceeded (some T) t0 (procEvent cb (.fire p) s).now = false := by
        simp [timeoutExceeded]
        omega
      rw [waitLoop_cons_continue cb (some T) t0 (.fire p) rest s hr ht]
      have h := ih (procEvent cb (.fire p) s) hrec
        (fun q hq => hacc q (List.mem_cons_of_mem _ hq))
        (by simp; omega) (by simp; omega)
        (by simpa [sumTicks] using htot)
      exact ⟨h.1, h.2.1, h.2.2.1, by rw [h.2.2.2]; simp⟩
    | tick d =>
      by_cases hd : T < s.now + d - t0
      · have ht : timeoutExceeded (some T) t0 (procEvent cb (.tick d) s).now = true := by
          simp [timeoutExceeded]
          omega
        rw [waitLoop_cons_timeout cb (some T) t0 (.tick d) rest s hr ht]
        refine ⟨rfl, ?_, rfl, ?_⟩
        · simp [disconnectSlot]
          omega
        · simp [disconnectSlot]
      · have ht : timeoutExceeded (some T) t0 (procEvent cb (.tick d) s).now = false := by
          simp [timeoutExceeded]
          omega
        rw [waitLoop_cons_continue cb (some T) t0 (.tick d) rest s hr ht]
        have h := ih (procEvent cb (.tick d) s) (by simp [hr])
          (fun q hq => hacc q (List.mem_cons_of_mem _ hq))
          (by simp; omega) (by simp; omega)
          (by simp only [sumTicks] at htot ⊢; simp; omega)
        exact ⟨h.1, h.2.1, h.2.2.1, by rw [h.2.2.2]; simp⟩

/-- If every payload delivered before some event `fire p` is rejected by
the predicate, `p` is accepted, and no timeout is configured, the loop
returns `p`, having stayed subscribed throughout and disconnected exactly
once at exit. -/
lemma waitLoop_first_accepted (pred : α → Bool) (t0 : Nat) (p : α)
    (rest : List (SigEvent α)) (hp : pred p = true) :
    ∀ (evs : List (SigEvent α)) (s : WaitState α),
      s.received = false →
      (∀ q, SigEvent.fire q ∈ evs → pred q = false) →
      waitLoop (some pred) none t0 (evs ++ SigEvent.fire p :: rest) s =
        (.success (some p),
         { received := true, sigArgs := some p, connected := false,
           disconnects := s.disconnects + 1, now := s.now + sumTicks evs }) := by
  intro evs
  induction evs with
  | nil =>
    intro s hr _
    rw [List.nil_append,
      waitLoop_cons_continue (some pred) none t0 (.fire p) rest s hr rfl,
      waitLoop_received (some pred) none t0 rest _ (by simp [hr, accepted, hp])]
    simp [disconnectSlot, procEvent, slotCall, accepted, hr, hp, sumTicks]
  | cons e evs' ih =>
    intro s hr hrej
    rw [List.cons_append]
    cases e with
    | fire q =>
      have hq : pred q = false := hrej q (by simp)
      have hrec : (procEvent (some pred) (.fire q) s).received = false := by
        simp [hr, accepted, hq]
      rw [waitLoop_cons_continue (some pred) none t0 (.fire q) _ s hr rfl,
        ih (procEvent (some pred) (.fire q) s) hrec
          (fun q' hq' => hrej q' (List.mem_cons_of_mem _ hq'))]
      simp [sumTicks]
    | tick d =>
      rw [waitLoop_cons_continue (some pred) none t0 (.tick d) _ s hr rfl,
        ih (procEvent (some pred) (.tick d) s) (by simp [hr])
          (fun q' hq' => hrej q' (List.mem_cons_of_mem _ hq'))]
      simp [sumTicks, Nat.add_assoc]

/-! ## Claim theorems about `waitForSignal` -/

/-- C3: on every exit path of `waitForSignal` — normal return after an
accepted event, `TimeoutError`, and early `NexTInternalError` before any
blocking — the subscription made by the call has been removed exactly
once by the time the call exits.  When `connect` succeeded the slot has
been disconnected exactly once (`disconnects = 1`); when `connect` failed
no subscription was ever made (`disconnects = 0`); in either case no
connected slot survives the call. -/
theorem waitForSignal_unsubscribes_on_every_exit (connectOk : Bool)
    (cb : Option (α → Bool)) (tmo : Option Nat) (t0 : Nat) (script : List (SigEvent α))
    (hexit : (waitForSignal connectOk cb tmo t0 script).1 ≠ .stillWaiting) :
    (waitForSignal connectOk cb tmo t0 script).2.connected = false ∧
    (waitForSignal connectOk cb tmo t0 script).2.disconnects =
      (if connectOk then 1 else 0) := by
  cases connectOk with
  | false => exact ⟨rfl, rfl⟩
  | true =>
    exact waitLoop_exit_disconnects cb tmo t0 script
      { received := false, sigArgs := none, connected := true, disconnects := 0, now := t0 }
      hexit

theorem waitForSignal_unsubscribes_on_every_exit_witness :
    (waitForSignal (α := Nat) true none none 0 [.fire 5]).2.connected = false ∧
    (waitForSignal (α := Nat) true none none 0 [.fire 5]).2.disconnects =
      (if (true : Bool) then 1 else 0) :=
  waitForSignal_unsubscribes_on_every_exit true none none 0 [.fire 5] (by decide)

/-- C4: a `waitForSignal` call with timeout `T` whose signal never fires
an accepted event raises `TimeoutError`, and it does so only after the
monotonic clock started at entry (`t0`) shows an elapsed time strictly
greater than `T` — never earlier than `T`; the slot has been disconnected
(exactly once) when the error is raised. -/
theorem waitForSignal_timeout_raises (cb : Option (α → Bool)) (T t0 : Nat)
    (script : List (SigEvent α))
    (hacc : ∀ p, SigEvent.fire p ∈ script → accepted cb p = false)
    (hdur : T < sumTicks script) :
    (waitForSignal true cb (some T) t0 script).1 = .timeoutErr ∧
    T < (waitForSignal true cb (some T) t0 script).2.now - t0 ∧
    (waitForSignal true cb (some T) t0 script).2.connected = false ∧
    (waitForSignal true cb (some T) t0 script).2.disconnects = 1 :=
  waitLoop_times_out cb T t0 script
    { received := false, sigArgs := none, connected := true, disconnects := 0, now := t0 }
    rfl hacc (le_refl t0) (show t0 - t0 ≤ T by omega)
    (show T < t0 - t0 + sumTicks script by omega)

theorem waitForSignal_timeout_raises_witness :
    (waitForSignal (α := Nat) true none (some 3) 0 [.tick 5]).1 = .timeoutErr ∧
    3 < (waitForSignal (α := Nat) true none (some 3) 0 [.tick 5]).2.now - 0 ∧
    (waitForSignal (α := Nat) true none (some 3) 0 [.tick 5]).2.connected = false ∧
    (waitForSignal (α := Nat) true none (some 3) 0 [.tick 5]).2.disconnects = 1 :=
  waitForSignal_timeout_raises none 3 0 [.tick 5]
    (fun p hp => by simp at hp) (by decide)

/-- C6: for a `waitForSignal` call with a predicate and no timeout, every
event whose payload the predicate rejects leaves the call subscribed and
waiting, and the first event whose payload the predicate accepts makes the
call unsubscribe and return exactly that payload.  The slot is
disconnected exactly once over the whole call, so it was still subscribed
across all the rejected firings. -/
theorem waitForSignal_predicate_first_accept (pred : α → Bool) (t0 : Nat)
    (evs rest : List (SigEvent α)) (p : α)
    (hrej : ∀ q, SigEvent.fire q ∈ evs → pred q = false) (hp : pred p = true) :
    (waitForSignal true (some pred) none t0 (evs ++ SigEvent.fire p :: rest)).1 =
      .success (some p) ∧
    (waitForSignal true (some pred) none t0 (evs ++ SigEvent.fire p :: rest)).2.disconnects =
      1 ∧
    (waitForSignal true (some pred) none t0 (evs ++ SigEvent.fire p :: rest)).2.connected =
      false := by
  have h : waitForSignal true (some pred) none t0 (evs ++ SigEvent.fire p :: rest) =
      (.success (some p),
       { received := true, sigArgs := some p, connected := false,
         disconnects := 0 + 1, now := t0 + sumTicks evs }) :=
    waitLoop_first_accepted pred t0 p rest hp evs
      { received := false, sigArgs := none, connected := true, disconnects := 0, now := t0 }
      rfl hrej
  rw [h]
  exact ⟨rfl, rfl, rfl⟩

theorem waitForSignal_predicate_first_accept_witness :
    (waitForSignal true (some fun q => q == 3) none 0
        (([.fire 1, .fire 2] : List (SigEvent Nat)) ++ SigEvent.fire 3 :: [])).1 =
      .success (some 3) ∧
    (waitForSignal true (some fun q => q == 3) none 0
        (([.fire 1, .fire 2] : List (SigEvent Nat)) ++ SigEvent.fire 3 :: [])).2.disconnects =
      1 ∧
    (waitForSignal true (some fun q => q == 3) none 0
        (([.fire 1, .fire 2] : List (SigEvent Nat)) ++ SigEvent.fire 3 :: [])).2.connected =
      false :=
  waitForSignal_predicate_first_accept (fun q => q == 3) 0 [.fire 1, .fire 2] [] 3
    (fun q hq => by
      simp only [List.mem_cons, List.not_mem_nil, or_false] at hq
      rcases hq with hq | hq <;> · cases hq; rfl)
    rfl

/-- C8: when the subscription cannot be established
(`signal.connect(_slot, Qt.QueuedConnection)` returns false),
`waitForSignal` raises `NexTInternalError` immediately: no event is
pumped, no time passes (`now = t0`), no payload is stored and no
disconnect is ever attempted. -/
theorem waitForSignal_connect_failure_internal_error (cb : Option (α → Bool))
    (tmo : Option Nat) (t0 : Nat) (script : List (SigEvent α)) :
    waitForSignal false cb tmo t0 script =
      (.internalErr,
       { received := false, sigArgs := none, connected := false,
         disconnects := 0, now := t0 }) := rfl

/-! ## Claim theorems about `MethodInvoker` and the thread-affinity guard -/

/-- C7: for a bare function (no descriptor dictionary, not a bound method
of a `QObject`) with a connection type other than `Qt.DirectConnection`,
`MethodInvoker.__init__` logs the warning that the right thread cannot be
guaranteed, resolves no target thread, does not move the invoker to any
other thread (it stays with the calling thread's context), and proceeds
with the normal dispatch — the constructor raises no error on this path. -/
theorem methodInvoker_bare_function_degraded_path (objThread : Nat → Nat) (f : Nat)
    (ct : ConnType) (args : List Nat) (hct : ct ≠ ConnType.direct) :
    MethodInvoker.init objThread (.bare f) ct args =
      { callback := .bareFn f, args := args, thread := none, warned := true,
        movedTo := none,
        dispatch := if ct = ConnType.idleTask then .idleScheduled
                    else .connectedAndEmitted ct } := by
  simp [MethodInvoker.init, hct]

theorem methodInvoker_bare_function_degraded_path_witness :
    MethodInvoker.init (fun o => o) (.bare 1) .queued [] =
      { callback := .bareFn 1, args := [], thread := none, warned := true,
        movedTo := none,
        dispatch := if ConnType.queued = ConnType.idleTask then .idleScheduled
                    else .connectedAndEmitted .queued } :=
  methodInvoker_bare_function_degraded_path (fun o => o) 1 .queued [] (by decide)

/-- C9: for a `{receiver, method-name, optional thread}` descriptor,
`MethodInvoker.__init__` resolves the callback as `getattr(obj, method)`
and the target thread as the explicit `"thread"` entry when present and
as `obj.thread()` otherwise, and moves the invocation record to exactly
that thread; for a bound method of a `QObject`, the target thread is the
receiver's owning thread `callback.__self__.thread()`. -/
theorem methodInvoker_descriptor_resolution (objThread : Nat → Nat) (obj : Nat)
    (method : String) (et : Option Nat) (ct : ConnType) (args : List Nat) :
    (MethodInvoker.init objThread (.descriptor obj method et) ct args).callback =
        .objMethod obj method ∧
    (MethodInvoker.init objThread (.descriptor obj method et) ct args).thread =
        some (match et with | some t => t | none => objThread obj) ∧
    (MethodInvoker.init objThread (.descriptor obj method et) ct args).movedTo =
        (MethodInvoker.init objThread (.descriptor obj method et) ct args).thread ∧
    (MethodInvoker.init objThread (.boundMethod obj method) ct args).callback =
        .objMethod obj method ∧
    (MethodInvoker.init objThread (.boundMethod obj method) ct args).thread =
        some (objThread obj) ∧
    (MethodInvoker.init objThread (.boundMethod obj method) ct args).movedTo =
        some (objThread obj) := by
  cases et <;> simp [MethodInvoker.init]

/-- C10: when no `QCoreApplication` instance exists, `isMainThread`
returns true for every calling thread and `assertMainThread` never
raises; and `assertMainThread` raises `NexTInternalError` if and only if
an application instance exists and the calling thread differs from that
instance's owning thread. -/
theorem mainThread_guard (inst : Option Nat) (appThread : Nat → Nat) (current : Nat) :
    (inst = none → isMainThread inst appThread current = true ∧
      assertMainThread inst appThread current = Except.ok ()) ∧
    ((∃ e, assertMainThread inst appThread current = Except.error e) ↔
      ∃ a, inst = some a ∧ current ≠ appThread a) := by
  cases inst with
  | none =>
    refine ⟨fun _ => ⟨rfl, rfl⟩, ?_⟩
    constructor
    · rintro ⟨e, he⟩
      simp [assertMainThread, isMainThread] at he
    · rintro ⟨a, ha, _⟩
      exact Option.noConfusion ha
  | some a =>
    refine ⟨fun h => Option.noConfusion h, ?_⟩
    by_cases hc : current = appThread a
    · simp [assertMainThread, isMainThread, hc]
    · simp [assertMainThread, isMainThread, hc]

theorem mainThread_guard_witness :
    ((none : Option Nat) = none → isMainThread none (fun a => a + 10) 5 = true ∧
      assertMainThread none (fun a => a + 10) 5 = Except.ok ()) ∧
    ((∃ e, assertMainThread none (fun a => a + 10) 5 = Except.error e) ↔
      ∃ a, (none : Option Nat) = some a ∧ 5 ≠ (fun a => a + 10) a) :=
  mainThread_guard none (fun a => a + 10) 5
